import Mathlib

/-!
# Zenith Runtime — shallow embedding and verification

This file embeds, in Lean 4, the parts of the `zenith-runtime` JavaScript
package that its specification makes checkable claims about:

* `src/signal.js`   — the explicit signal primitive (`signal`),
* `src/state.js`    — the immutable-snapshot state container (`state`),
* `src/cleanup.js`  — the process-wide disposer/listener registry (`cleanup`),
* `zeneffect`       — the explicit-dependency effect variant
  (runtime template `zeneffect(fn, dependencies)`),
* `src/hydrate.js`  — payload validation (`_validatePayload`), the
  signal→marker dependency index built by `hydrate`, the strict
  dotted-identifier member-chain resolver
  (`_resolveStrictMemberChainLiteral`) and the embedded-markup sanitizer
  (`_zenhtml` / `_zenhtml_coerce`).

JavaScript values are modelled by small inductive types that cover exactly
the dynamic shapes the embedded code can observe; machine behaviour such as
`Object.is`, `Object.freeze` (shallow!), `Set` membership and strict-mode
write errors is made explicit.
-/

namespace Zenith

/-! ## JavaScript value model for signals

`signal` stores an arbitrary JS value and gates notification on
`Object.is`.  `JsVal` covers the primitive shapes needed by the claims;
`objectIs` mirrors `Object.is` on them (`NaN` is `Object.is`-equal to
itself; `-0` is not modelled because no claim distinguishes it). -/

inductive JsVal where
  | nan : JsVal
  | num : Int → JsVal
  | str : String → JsVal
  | bool : Bool → JsVal
  | null : JsVal
  | undef : JsVal
  | objRef : Nat → JsVal
  deriving DecidableEq, Repr

/-- `Object.is` on the modelled values: structural sameness, with
`Object.is(NaN, NaN) === true`. -/
def objectIs (a b : JsVal) : Bool :=
  a = b

/-! ## `signal.js` — the signal primitive

A subscriber is identified by function identity (JS `Set` semantics);
`SubId` is that identity.  `SignalState` is the closure state of one
signal: the boxed `value` and the `subscribers` set, kept as the
insertion-ordered duplicate-free list a JS `Set` iterates in. -/

abbrev SubId := Nat

structure SignalState where
  value : JsVal
  subscribers : List SubId
  deriving DecidableEq, Repr

/-- JS `Set.prototype.add`: append if absent, keep insertion order. -/
def setAdd (l : List SubId) (x : SubId) : List SubId :=
  if x ∈ l then l else l ++ [x]

/-- JS `Set.prototype.delete`: remove the element if present. -/
def setDelete (l : List SubId) (x : SubId) : List SubId :=
  l.filter (fun y => y ≠ x)

/-- `signal(initialValue)`: fresh state with no subscribers
(`let value = initialValue; const subscribers = new Set();`). -/
def signalCreate (initialValue : JsVal) : SignalState :=
  { value := initialValue, subscribers := [] }

/-- `signal(...).set(nextValue)`: if `Object.is(value, nextValue)` return
the unchanged value, notifying nobody; otherwise store `nextValue`, take a
snapshot `[...subscribers]` of the subscriber set and invoke each entry in
order.  The returned list is the sequence of subscriber invocations the
call performs. -/
def signalSet (s : SignalState) (nextValue : JsVal) : SignalState × List SubId :=
  if objectIs s.value nextValue then
    (s, [])
  else
    ({ s with value := nextValue }, s.subscribers)

/-- `signal(...).subscribe(fn)` for a function argument: add `fn` to the
subscriber set and hand back an unsubscribe closure (identified here by the
captured `fn`).  The non-function guard of the source is outside this typed
model's domain. -/
def signalSubscribe (s : SignalState) (fn : SubId) : SignalState × SubId :=
  ({ s with subscribers := setAdd s.subscribers fn }, fn)

/-- The unsubscribe closure returned by `subscribe`: `subscribers.delete(fn)`. -/
def signalUnsubscribe (s : SignalState) (fn : SubId) : SignalState :=
  { s with subscribers := setDelete s.subscribers fn }

/-! ## `state.js` — the immutable-snapshot state container

`state` snapshots are plain objects or arrays whose top level is copied and
passed to `Object.freeze`.  `Object.freeze` is *shallow*, so the model
keeps a `frozen` flag on every object/array node of a value tree and
freezing sets only the root's flag. -/

inductive SVal where
  | prim : JsVal → SVal
  | obj  : Bool → List (String × SVal) → SVal      -- frozen flag, own fields
  | arr  : Bool → List SVal → SVal                 -- frozen flag, elements
  | func : SVal                                     -- function values

/-- `isPlainObject(value)`: a non-null object that is not an array (the
`Object.prototype.toString` check excludes exotic objects, which the model
does not contain). -/
def isPlainObject : SVal → Bool
  | SVal.obj _ _ => true
  | _ => false

/-- `Array.isArray(value)` on the model. -/
def isArray : SVal → Bool
  | SVal.arr _ _ => true
  | _ => false

/-- `cloneSnapshot(value)`: shallow copy of an array or plain object
(fresh unfrozen container, same children), anything else unchanged. -/
def cloneSnapshot : SVal → SVal
  | SVal.arr _ elems => SVal.arr false elems
  | SVal.obj _ fields => SVal.obj false fields
  | v => v

/-- `Object.freeze(value)`: sets the *top-level* frozen flag only —
JavaScript's freeze is shallow. -/
def objectFreeze : SVal → SVal
  | SVal.arr _ elems => SVal.arr true elems
  | SVal.obj _ fields => SVal.obj true fields
  | v => v

mutual

/-- A value tree is deeply frozen when every object/array node in it is
frozen.  This is what the spec asserts of every handed-out snapshot. -/
def deeplyFrozen : SVal → Bool
  | SVal.prim _ => true
  | SVal.func => true
  | SVal.obj frozen fields => frozen && deeplyFrozenFields fields
  | SVal.arr frozen elems => frozen && deeplyFrozenElems elems

/-- All field values of an object node are deeply frozen. -/
def deeplyFrozenFields : List (String × SVal) → Bool
  | [] => true
  | (_, v) :: rest => deeplyFrozen v && deeplyFrozenFields rest

/-- All elements of an array node are deeply frozen. -/
def deeplyFrozenElems : List SVal → Bool
  | [] => true
  | v :: rest => deeplyFrozen v && deeplyFrozenElems rest

end

/-- In strict mode (ES modules), assigning to a property of a frozen
object throws a `TypeError`; on an unfrozen object it succeeds.  `path`
addresses a nested object node by field names; the result is whether a
write to a property *of that node* throws. -/
def mutationThrowsAt (v : SVal) (path : List String) : Option Bool :=
  match path, v with
  | [], SVal.obj frozen _ => some frozen
  | [], SVal.arr frozen _ => some frozen
  | k :: rest, SVal.obj _ fields =>
      match fields.find? (fun p => p.1 = k) with
      | some (_, w) => mutationThrowsAt w rest
      | none => none
  | _, _ => none
termination_by structural path

/-- `state(initialValue)` initial snapshot:
`Object.freeze(cloneSnapshot(initialValue))`. -/
def stateInit (initialValue : SVal) : SVal :=
  objectFreeze (cloneSnapshot initialValue)

/-- The argument of `state(...).set`: either a direct patch value or a
functional updater of the previous snapshot. -/
inductive Patch where
  | value : SVal → Patch
  | fn : (SVal → SVal) → Patch

/-- `{ ...current, ...patch }`: own enumerable fields of `current`
overridden by those of `patch`.  Spreading a non-object contributes no
fields; spreading an array contributes index keys (modelled as such). -/
def spreadMerge (current patchV : SVal) : SVal :=
  let fieldsOf : SVal → List (String × SVal)
    | SVal.obj _ fields => fields
    | SVal.arr _ elems => (elems.enum.map (fun p => (toString p.1, p.2)))
    | _ => []
  let base := fieldsOf current
  let patchFields := fieldsOf patchV
  let merged :=
    (base.filter (fun p => patchFields.all (fun q => q.1 ≠ p.1))) ++ patchFields
  SVal.obj false merged

/-- The `nextValue` ternary of `state(...).set`:
`typeof nextPatch === 'function' ? nextPatch(current) : { ...current, ...nextPatch }`. -/
def stateResolvedNext (current : SVal) (nextPatch : Patch) : SVal :=
  match nextPatch with
  | Patch.fn f => f current
  | Patch.value v => spreadMerge current v

/-- `state(...).set(nextPatch)` from `src/state.js`:

```js
const nextValue = typeof nextPatch === 'function'
    ? nextPatch(current) : { ...current, ...nextPatch };
if (!nextValue || typeof nextValue !== 'object' || Array.isArray(nextValue)) {
    throw new Error('... must resolve to a plain object');
}
const nextSnapshot = Object.freeze(cloneSnapshot(nextValue));
if (Object.is(current, nextSnapshot)) return current;
current = nextSnapshot; // then notify the subscriber snapshot
```

The result is the new snapshot (`.error` for the thrown case) together
with the invoked subscriber list. -/
def stateSet (current : SVal) (subscribers : List SubId) (nextPatch : Patch) :
    Except String (SVal × List SubId) :=
  let nextValue := stateResolvedNext current nextPatch
  if !(isPlainObject nextValue) then
    Except.error "[Zenith Runtime] state.set(next) must resolve to a plain object"
  else
    let nextSnapshot := objectFreeze (cloneSnapshot nextValue)
    -- `Object.is(current, nextSnapshot)` compares object identity; the
    -- snapshot is a freshly allocated clone, so it is never identical to
    -- `current`, and the write always proceeds to notification.
    Except.ok (nextSnapshot, subscribers)

/-- `state(...).subscribe(fn)`: body identical to the signal's
(`subscribers.add(fn)` on a `Set`). -/
def stateSubscribe (subscribers : List SubId) (fn : SubId) : List SubId :=
  setAdd subscribers fn

/-- The unsubscribe closure returned by `state(...).subscribe`:
`subscribers.delete(fn)`. -/
def stateUnsubscribe (subscribers : List SubId) (fn : SubId) : List SubId :=
  setDelete subscribers fn

/-- Whether an `Except` computation succeeded. -/
def exceptIsOk {ε α : Type} : Except ε α → Bool
  | Except.ok _ => true
  | Except.error _ => false

/-! ## `cleanup.js` — the process-wide teardown registry

Module state: `_disposers : function[]`, `_listeners`, and the `_cleaned`
idempotence latch.  A disposer is identified by an id and carries a
`throws` flag so that exception swallowing is observable in the model. -/

structure Disposer where
  id : Nat
  throws : Bool
  deriving DecidableEq, Repr

structure Listener where
  element : Nat
  event : String
  handler : Nat
  deriving DecidableEq, Repr

structure Registry where
  disposers : List Disposer
  listeners : List Listener
  cleaned : Bool
  deriving DecidableEq, Repr

/-- The registry at module load: empty lists, `_cleaned = false`. -/
def Registry.initial : Registry :=
  { disposers := [], listeners := [], cleaned := false }

/-- `_registerDisposer(dispose)`: push and clear the idempotence latch. -/
def registerDisposer (r : Registry) (d : Disposer) : Registry :=
  { r with disposers := r.disposers ++ [d], cleaned := false }

/-- `_registerListener(element, event, handler)`: push and clear the latch. -/
def registerListener (r : Registry) (l : Listener) : Registry :=
  { r with listeners := r.listeners ++ [l], cleaned := false }

/-- `cleanup()`:

```js
if (_cleaned) return;
for (let i = _disposers.length - 1; i >= 0; i--) {
    try { _disposers[i](); } catch { /* must not interrupt teardown */ }
}
_disposers.length = 0;
/* ...remove listeners in reverse, also exception-guarded... */
_listeners.length = 0;
resetGlobalSideEffects();
_cleaned = true;
```

Returns the new registry state together with the ids of the disposers that
were *invoked* (in invocation order; a throwing disposer is still invoked,
its exception swallowed by the `try`/`catch`). -/
def cleanup (r : Registry) : Registry × List Nat :=
  if r.cleaned then
    (r, [])
  else
    ({ disposers := [], listeners := [], cleaned := true },
     (r.disposers.reverse).map Disposer.id)

/-! ## `zeneffect(fn, dependencies)` — explicit-dependency effect

Embedded from the canonical runtime template
(`tests/fixtures/runtime-template.golden.js`, whose body the V0 variant in
`zeneffect.js` matches): order-tolerant overload dispatch, mandatory
non-empty dependency array, each dependency must expose `subscribe`, the
effect runs exactly once synchronously before `zeneffect` returns, and each
dependency notification invokes the effect directly (no scheduler).

A dependency is either one of the world's signals (which always expose
`subscribe`) or some other value without a `subscribe` method. -/

inductive Dep where
  | sig : Nat → Dep            -- index into the world's signal list
  | noSubscribe : Dep          -- a value lacking a callable `subscribe`
  deriving DecidableEq, Repr

/-- An argument of the `zeneffect` overload: a function, a dependency
array, or anything else. -/
inductive ZArg where
  | func : ZArg
  | arr : List Dep → ZArg
  | other : ZArg
  deriving DecidableEq, Repr

/-- A world of live signals; `zeneffect` subscribes its `runEffect` closure
(identified by `effectFn`) to each listed signal. -/
abbrev SignalWorld := List SignalState

/-- Core of `zeneffect(fn, dependencies)` once `fn` is known to be a
function: validate the dependency array, subscribe `runEffect` to every
dependency (`dependencies.map(dep => dep.subscribe(runEffect))`), then run
the effect once (`runEffect()`).

Result: the updated signal world and the number of times the effect body
ran during the call itself (always 1 on success — the `runEffect()` after
the subscription map). -/
def zeneffectCore (world : SignalWorld) (deps : List Dep) (effectFn : SubId) :
    Except String (SignalWorld × Nat) :=
  if deps.isEmpty then
    Except.error "[Zenith Runtime] zeneffect(fn, deps) requires non-empty deps"
  else
    (go world deps 0).map (fun w => (w, 1))
where
  /-- `dependencies.map((dep, index) => ...)`: sequentially check
  `dep.subscribe` and subscribe. -/
  go (world : SignalWorld) : List Dep → Nat → Except String SignalWorld
    | [], _ => Except.ok world
    | Dep.noSubscribe :: _, index =>
        Except.error
          s!"[Zenith Runtime] zeneffect dependency at index {index} must expose subscribe(fn)"
    | Dep.sig i :: rest, index =>
        match world.get? i with
        | none =>
            Except.error
              s!"[Zenith Runtime] zeneffect dependency at index {index} must expose subscribe(fn)"
        | some s =>
            go (world.set i (signalSubscribe s effectFn).1) rest (index + 1)

/-- `zeneffect(fn, dependencies)` with the order-tolerant overload of the
runtime template:

```js
if (typeof fn !== 'function') {
  if (Array.isArray(fn) && typeof dependencies === 'function') {
    return zeneffect(dependencies, fn);
  }
  throw new Error('[Zenith Runtime] zeneffect(fn, deps) requires fn');
}
if (!Array.isArray(dependencies) || dependencies.length === 0) {
  throw new Error('[Zenith Runtime] zeneffect(fn, deps) requires non-empty deps');
}
```
-/
def zeneffect (world : SignalWorld) (a b : ZArg) (effectFn : SubId) :
    Except String (SignalWorld × Nat) :=
  match a with
  | ZArg.func =>
      match b with
      | ZArg.arr deps => zeneffectCore world deps effectFn
      | _ => Except.error "[Zenith Runtime] zeneffect(fn, deps) requires non-empty deps"
  | ZArg.arr deps =>
      match b with
      | ZArg.func => zeneffectCore world deps effectFn
      | _ => Except.error "[Zenith Runtime] zeneffect(fn, deps) requires fn"
  | ZArg.other => Except.error "[Zenith Runtime] zeneffect(fn, deps) requires fn"

/-! ## `hydrate.js` — payload tables and `_validatePayload`

The tables are modelled with the dynamic shapes `_validatePayload` can
actually observe once an entry is a non-array object: indices are JS
numbers restricted to integers (`Int`, with `Number.isInteger` separately
tracked fields omitted — a non-integer index is outside this typed model's
domain and yields the same `invalid`/`out-of-bounds` errors before any
order check, so order-claims quantify over integer-indexed tables).
`refs`/`components`/`params`/`ssr_data` are taken absent (their loops are
vacuous), as no claim depends on them. -/

inductive MarkerKind where
  | text | attr | event
  deriving DecidableEq, Repr

structure Marker where
  index : Int
  kind : MarkerKind
  selector : String
  attr : Option String := none
  deriving DecidableEq, Repr

structure Expression where
  marker_index : Int
  signal_index : Option Int := none
  signal_indices : Option (List Int) := none
  state_index : Option Int := none
  component_instance : Option String := none
  component_binding : Option String := none
  fn_index : Option Int := none
  deriving DecidableEq, Repr

structure EventBinding where
  index : Int
  event : String
  selector : String
  deriving DecidableEq, Repr

structure SignalDescriptor where
  id : Int
  state_index : Int
  deriving DecidableEq, Repr

/-- An entry of `state_values[]`: either a signal-like object (an object
exposing callable `get` and `subscribe`, identified by the object id of
the underlying reference) or some other value. -/
inductive StateValue where
  | signalObj : Nat → StateValue
  | nonSignal : StateValue
  deriving DecidableEq, Repr

structure Payload where
  ir_version : Int
  expressions : List Expression
  markers : List Marker
  events : List EventBinding
  state_values : List StateValue
  signals : List SignalDescriptor
  deriving DecidableEq, Repr

/-- The distinct failures `_validatePayload` can raise, in the order the
source raises them.  `isOutOfOrder` singles out the two "table out of
order" messages the ordering contract speaks about. -/
inductive ValErr where
  | badIrVersion
  | markerExpressionMismatch (markers expressions : Nat)
  | exprInvalidMarkerIndex (i : Nat)
  | exprOutOfOrder (i : Nat) (markerIndex : Int)
  | exprInvalidFnIndex (i : Nat)
  | exprInvalidSignalIndices (i j : Nat)
  | markerOutOfBounds (i : Nat)
  | markerOutOfOrder (i : Nat) (index : Int)
  | markerMissingSelector (i : Nat)
  | markerMissingAttr (i : Nat)
  | eventOutOfBounds (i : Nat)
  | eventMissingName (i : Nat)
  | eventMissingSelector (i : Nat)
  | signalOutOfOrder (i : Nat) (id : Int)
  | signalInvalidId (i : Nat)
  | signalStateIndexOutOfBounds (i : Nat)
  deriving DecidableEq, Repr

/-- The "table out of order" failure category ("expression table out of
order at position i", "marker table out of order at position i",
"signal table out of order at position i"). -/
def ValErr.isOutOfOrder : ValErr → Bool
  | ValErr.exprOutOfOrder _ _ => true
  | ValErr.markerOutOfOrder _ _ => true
  | ValErr.signalOutOfOrder _ _ => true
  | _ => false

/-- The expression loop of `_validatePayload`:

```js
for (let i = 0; i < expressions.length; i++) {
    if (!Number.isInteger(mi) || mi < 0 || mi >= expressions.length) throw invalid;
    if (mi !== i) throw out-of-order;
    if (fn_index != null && (!Number.isInteger(fn_index) || fn_index < 0)) throw;
    if (signal_indices !== undefined) { each must be a non-negative integer }
}
```
-/
def checkExpressions (total : Nat) : List Expression → Nat → Except ValErr Unit
  | [], _ => Except.ok ()
  | e :: rest, i =>
      if e.marker_index < 0 ∨ e.marker_index ≥ (total : Int) then
        Except.error (ValErr.exprInvalidMarkerIndex i)
      else if e.marker_index ≠ (i : Int) then
        Except.error (ValErr.exprOutOfOrder i e.marker_index)
      else if (match e.fn_index with | some f => decide (f < 0) | none => false) = true then
        Except.error (ValErr.exprInvalidFnIndex i)
      else
        match (match e.signal_indices with
               | some l => l.findIdx? (fun v => v < 0)
               | none => none) with
        | some j => Except.error (ValErr.exprInvalidSignalIndices i j)
        | none => checkExpressions total rest (i + 1)

/-- The marker loop of `_validatePayload`: bounds, strict position order,
kind (always valid in the typed model), non-empty selector, `attr` name
for attribute markers. -/
def checkMarkers (total : Nat) : List Marker → Nat → Except ValErr Unit
  | [], _ => Except.ok ()
  | m :: rest, i =>
      if m.index < 0 ∨ m.index ≥ (total : Int) then
        Except.error (ValErr.markerOutOfBounds i)
      else if m.index ≠ (i : Int) then
        Except.error (ValErr.markerOutOfOrder i m.index)
      else if m.selector = "" then
        Except.error (ValErr.markerMissingSelector i)
      else if m.kind = MarkerKind.attr ∧ (m.attr = none ∨ m.attr = some "") then
        Except.error (ValErr.markerMissingAttr i)
      else
        checkMarkers total rest (i + 1)

/-- The event loop of `_validatePayload`. -/
def checkEvents (total : Nat) : List EventBinding → Nat → Except ValErr Unit
  | [], _ => Except.ok ()
  | e :: rest, i =>
      if e.index < 0 ∨ e.index ≥ (total : Int) then
        Except.error (ValErr.eventOutOfBounds i)
      else if e.event = "" then
        Except.error (ValErr.eventMissingName i)
      else if e.selector = "" then
        Except.error (ValErr.eventMissingSelector i)
      else
        checkEvents total rest (i + 1)

/-- The signal-descriptor loop of `_validatePayload`: `kind === "signal"`
(carried by the type), non-negative id, strict `id === i` order,
`state_index` within `state_values`. -/
def checkSignals (stateLen : Nat) : List SignalDescriptor → Nat → Except ValErr Unit
  | [], _ => Except.ok ()
  | s :: rest, i =>
      if s.id < 0 then
        Except.error (ValErr.signalInvalidId i)
      else if s.id ≠ (i : Int) then
        Except.error (ValErr.signalOutOfOrder i s.id)
      else if s.state_index < 0 ∨ s.state_index ≥ (stateLen : Int) then
        Except.error (ValErr.signalStateIndexOutOfBounds i)
      else
        checkSignals stateLen rest (i + 1)

/-- `_validatePayload(payload)` over the typed tables, in source order:
`ir_version` check, array-shape checks (carried by the types), the
`markers.length === expressions.length` contract, then the expression,
marker, event and signal loops (a throw in an earlier loop aborts the
later ones). -/
def validatePayload (p : Payload) : Except ValErr Unit :=
  if p.ir_version ≠ 1 then
    Except.error ValErr.badIrVersion
  else if p.markers.length ≠ p.expressions.length then
    Except.error (ValErr.markerExpressionMismatch p.markers.length p.expressions.length)
  else
    match checkExpressions p.expressions.length p.expressions 0 with
    | Except.error e => Except.error e
    | Except.ok _ =>
        match checkMarkers p.expressions.length p.markers 0 with
        | Except.error e => Except.error e
        | Except.ok _ =>
            match checkEvents p.expressions.length p.events 0 with
            | Except.error e => Except.error e
            | Except.ok _ => checkSignals p.state_values.length p.signals 0

/-- The per-entry conditions of the expression loop that precede and
follow the order check (`marker_index` integral and in bounds, `fn_index`
and `signal_indices` valid when present): entries satisfying these can
only fail the loop through the order check itself. -/
def exprEntryWf (total : Nat) (e : Expression) : Bool :=
  decide (0 ≤ e.marker_index) && decide (e.marker_index < (total : Int)) &&
  (match e.fn_index with | some f => decide (0 ≤ f) | none => true) &&
  (match e.signal_indices with
   | some l => l.all (fun v => decide (0 ≤ v))
   | none => true)

/-- The per-entry conditions of the marker loop other than the order
check (`index` in bounds, valid kind — by type — non-empty selector, attr
name for attr markers). -/
def markerEntryWf (total : Nat) (m : Marker) : Bool :=
  decide (0 ≤ m.index) && decide (m.index < (total : Int)) &&
  decide (m.selector ≠ "") &&
  (match m.kind, m.attr with
   | MarkerKind.attr, some a => decide (a ≠ "")
   | MarkerKind.attr, none => false
   | _, _ => true)

/-- The marker indices `hydrate` applies bindings to.  `hydrate` calls
`_validatePayload` before touching any DOM node; a validation throw
propagates out of the surrounding `try` and no marker loop ever runs, so
a rejected payload yields no applied bindings. -/
def hydrateAppliedMarkers (p : Payload) : List Int :=
  match validatePayload p with
  | Except.error _ => []
  | Except.ok _ =>
      (p.markers.filter (fun m => m.kind ≠ MarkerKind.event)).map Marker.index

/-! ## `hydrate` — signal→marker dependency index and subscribe calls -/

/-- `[...new Set(list)]`: JavaScript `Set` de-duplication, keeping the
first occurrence of each element in iteration order. -/
def jsSetDedup {α : Type} [DecidableEq α] (l : List α) : List α :=
  go [] l
where
  /-- Walk in iteration order, keeping the first occurrence of each
  element (a JS `Set` preserves insertion order). -/
  go (seen : List α) : List α → List α
    | [] => []
    | x :: rest => if x ∈ seen then go seen rest else x :: go (seen ++ [x]) rest

/-- `_resolveExpressionSignalIndices(binding)`:

```js
if (Array.isArray(binding.signal_indices) && binding.signal_indices.length > 0) {
    return [...new Set(binding.signal_indices.filter(v => Number.isInteger(v) && v >= 0))];
}
if (Number.isInteger(binding.signal_index) && binding.signal_index >= 0) {
    return [binding.signal_index];
}
return [];
```
-/
def resolveExpressionSignalIndices (e : Expression) : List Int :=
  match e.signal_indices with
  | some l =>
      if l.length > 0 then jsSetDedup (l.filter (fun v => v ≥ 0))
      else match e.signal_index with
           | some s => if s ≥ 0 then [s] else []
           | none => []
  | none =>
      match e.signal_index with
      | some s => if s ≥ 0 then [s] else []
      | none => []

/-- Append a marker index under a signal id in the insertion-ordered
dependency map (`Map.set` on a missing key appends a fresh entry;
`Map.get(...).push(...)` extends an existing one). -/
def addMarkerDep (m : List (Int × List Int)) (sid : Int) (mi : Int) :
    List (Int × List Int) :=
  if m.any (fun p => p.1 = sid) then
    m.map (fun p => if p.1 = sid then (p.1, p.2 ++ [mi]) else p)
  else
    m ++ [(sid, [mi])]

/-- The `dependentMarkersBySignal` map `hydrate` builds by walking the
expression table in order and registering `expression.marker_index` under
every signal index the expression resolves to. -/
def dependentMarkersBySignal (exprs : List Expression) : List (Int × List Int) :=
  exprs.foldl
    (fun m e => (resolveExpressionSignalIndices e).foldl
      (fun m' sid => addMarkerDep m' sid e.marker_index) m)
    []

/-- `signalMap` as built by `hydrate`: position `i` maps to
`state_values[signals[i].state_index]`, which must be an object exposing
`get` and `subscribe` (here: a `StateValue.signalObj` with its object id). -/
def buildSignalMap (signals : List SignalDescriptor) (stateValues : List StateValue) :
    Except String (List Nat) :=
  go signals 0
where
  go : List SignalDescriptor → Nat → Except String (List Nat)
    | [], _ => Except.ok []
    | s :: rest, i =>
        match (if s.state_index < 0 then none
               else stateValues.get? s.state_index.toNat) with
        | some (StateValue.signalObj oid) =>
            (go rest (i + 1)).map (fun tl => oid :: tl)
        | _ =>
            Except.error s!"[Zenith Runtime] signal id {i} did not resolve to an object"

/-- The sequence of `subscribe` calls `hydrate` performs for the
signal-index dependency path: one call per entry of
`dependentMarkersBySignal`, in map iteration (insertion) order, on the
object `signalMap.get(signalId)` (unknown ids are fatal).  Each list
element is the object id of the signal object receiving one `subscribe`
invocation. -/
def signalSubscribeCalls (exprs : List Expression) (signalMap : List Nat) :
    Except String (List Nat) :=
  go (dependentMarkersBySignal exprs)
where
  go : List (Int × List Int) → Except String (List Nat)
    | [] => Except.ok []
    | (sid, _) :: rest =>
        match (if sid < 0 then none else signalMap.get? sid.toNat) with
        | none =>
            Except.error s!"[Zenith Runtime] expression references unknown signal id {sid}"
        | some oid => (go rest).map (fun tl => oid :: tl)

/-- End-to-end subscribe-call trace of a hydrate run on `p` (validation,
signal-map construction, dependency index, one `subscribe` per map entry). -/
def hydrateSignalSubscribeCalls (p : Payload) : Except String (List Nat) :=
  match validatePayload p with
  | Except.error _ => Except.error "[Zenith Runtime] payload rejected"
  | Except.ok _ =>
      match buildSignalMap p.signals p.state_values with
      | Except.error e => Except.error e
      | Except.ok smap => signalSubscribeCalls p.expressions smap

/-! ## `_resolveStrictMemberChainLiteral` — strict dotted member chains

Values as seen by the traversal: `typeof` distinguishes `null`/`undefined`
(nullish), primitives, objects and functions; objects and functions carry
own properties for the `Object.prototype.hasOwnProperty` test. -/

inductive MVal where
  | vnull : MVal
  | vundef : MVal
  | prim : JsVal → MVal                         -- string/number/boolean
  | obj : List (String × MVal) → MVal
  | fn : List (String × MVal) → MVal

/-- `UNSAFE_MEMBER_KEYS = new Set(['__proto__', 'prototype', 'constructor'])` -/
def unsafeMemberKeys : List String :=
  ["__proto__", "prototype", "constructor"]

/-- `Object.prototype.hasOwnProperty.call(cursor, segment)` plus the read
`cursor[segment]` for object/function cursors. -/
def mvalOwn : MVal → String → Option MVal
  | MVal.obj fields, k => (fields.find? (fun p => p.1 = k)).map Prod.snd
  | MVal.fn fields, k => (fields.find? (fun p => p.1 = k)).map Prod.snd
  | _, _ => none

/-- Structured failure of the traversal: the `code` and `path` fields of
the `throwZenithRuntimeError` call that raised it. -/
structure ChainError where
  code : String
  path : String
  deriving DecidableEq, Repr

/-- The per-segment loop of `_resolveStrictMemberChainLiteral`
(`for (let i = 1; i < segments.length; i++)`), carrying the traversed
dotted path.  Checks per segment, in source order: unsafe member name
(fatal, `UNSAFE_MEMBER_ACCESS` with the whole literal in the path), nullish
cursor, non-object/non-function cursor, missing own property (each fatal,
`UNRESOLVED_EXPRESSION` with the traversed path extended by the failing
segment). -/
def chainLoop (markerIndex : Nat) (literal : String) :
    MVal → String → List String → Except ChainError MVal
  | cursor, _, [] => Except.ok cursor
  | cursor, traversed, seg :: rest =>
      if seg ∈ unsafeMemberKeys then
        Except.error
          { code := "UNSAFE_MEMBER_ACCESS",
            path := s!"marker[{markerIndex}].expression.{literal}" }
      else
        match cursor with
        | MVal.vnull =>
            Except.error
              { code := "UNRESOLVED_EXPRESSION",
                path := s!"marker[{markerIndex}].expression.{traversed}.{seg}" }
        | MVal.vundef =>
            Except.error
              { code := "UNRESOLVED_EXPRESSION",
                path := s!"marker[{markerIndex}].expression.{traversed}.{seg}" }
        | MVal.prim _ =>
            Except.error
              { code := "UNRESOLVED_EXPRESSION",
                path := s!"marker[{markerIndex}].expression.{traversed}.{seg}" }
        | cursor =>
            match mvalOwn cursor seg with
            | none =>
                Except.error
                  { code := "UNRESOLVED_EXPRESSION",
                    path := s!"marker[{markerIndex}].expression.{traversed}.{seg}" }
            | some next =>
                chainLoop markerIndex literal next (traversed ++ "." ++ seg) rest

/-- `_resolveStrictMemberChainLiteral` from the point the literal has
matched the strict chain regex and is not one of the keyword literals:
split on `.`, look the base identifier up in the constrained scope
(missing base is fatal with an `expression.<base>` path), then walk the
member segments with `chainLoop`. -/
def resolveStrictMemberChain (markerIndex : Nat) (scope : List (String × MVal))
    (segments : List String) : Except ChainError MVal :=
  match segments with
  | [] => Except.error { code := "UNRESOLVED_EXPRESSION", path := "expression." }
  | base :: rest =>
      let literal := String.intercalate "." segments
      match (scope.find? (fun p => p.1 = base)).map Prod.snd with
      | none =>
          Except.error
            { code := "UNRESOLVED_EXPRESSION",
              path := s!"marker[{markerIndex}].expression.{base}" }
      | some cursor => chainLoop markerIndex literal cursor base rest

/-! ## `_zenhtml` — embedded-markup sanitizer

Interpolated values as `_zenhtml_coerce` distinguishes them.  A
"fragment" is an object with `__zenith_fragment === true` and a string
`html`; `obj` is any other non-array object (its own key list is kept for
the prototype-pollution guard); `fn`/`sym` are the non-object
non-renderable types. -/

inductive ZVal where
  | vnull : ZVal
  | vundef : ZVal
  | vbool : Bool → ZVal
  | str : String → ZVal
  | num : Int → ZVal
  | fragment : String → ZVal
  | arr : List ZVal → ZVal
  | obj : List String → ZVal
  | fnVal : ZVal
  | symVal : ZVal

/-- The structured render failures `_zenhtml` / `_zenhtml_coerce` can
raise, one constructor per `throwZenithRuntimeError` call site (all carry
`phase: 'render', code: 'NON_RENDERABLE_VALUE'`; the constructor records
which message category fired). -/
inductive ZenErr where
  | notTaggedTemplate
  | protoKey (interpolation : Nat) (key : String)
  | nonRenderableObject (interpolation : Nat)
  | nonRenderableType (interpolation : Nat)
  | scriptTag
  | eventAttr
  | jsUrl
  deriving DecidableEq, Repr

mutual

/-- `_zenhtml_coerce(val, interpolationIndex)`, in source order:
nullish/`false` and `true` coerce to the empty string, strings pass
through, numbers stringify, fragment-tagged objects splice their `.html`,
arrays recurse element-wise, other objects are rejected (prototype-pollution
keys first, then the generic non-renderable rejection), functions and
symbols are rejected by type. -/
def zenhtmlCoerce (interpolationIndex : Nat) : ZVal → Except ZenErr String
  | ZVal.vnull => Except.ok ""
  | ZVal.vundef => Except.ok ""
  | ZVal.vbool false => Except.ok ""
  | ZVal.vbool true => Except.ok ""
  | ZVal.str s => Except.ok s
  | ZVal.num n => Except.ok (toString n)
  | ZVal.fragment html => Except.ok html
  | ZVal.arr elems => zenhtmlCoerceList interpolationIndex elems
  | ZVal.obj keys =>
      match keys.find? (fun k => k ∈ ["__proto__", "constructor", "prototype"]) with
      | some k => Except.error (ZenErr.protoKey interpolationIndex k)
      | none => Except.error (ZenErr.nonRenderableObject interpolationIndex)
  | ZVal.fnVal => Except.error (ZenErr.nonRenderableType interpolationIndex)
  | ZVal.symVal => Except.error (ZenErr.nonRenderableType interpolationIndex)

/-- The array branch of `_zenhtml_coerce`: concatenate the coercions of
the elements (same interpolation index), failing on the first error. -/
def zenhtmlCoerceList (interpolationIndex : Nat) : List ZVal → Except ZenErr String
  | [] => Except.ok ""
  | v :: rest => do
      let head ← zenhtmlCoerce interpolationIndex v
      let tail ← zenhtmlCoerceList interpolationIndex rest
      Except.ok (head ++ tail)

end

/-- The assembly loop of `_zenhtml`:

```js
for (let i = 0; i < strings.length; i++) {
    result += strings[i];
    if (i < values.length) result += _zenhtml_coerce(values[i], i);
}
```

Values with no matching template string are never consumed. -/
def zenhtmlAssemble : List String → List ZVal → Nat → Except ZenErr String
  | [], _, _ => Except.ok ""
  | s :: srest, [], i => do
      let tail ← zenhtmlAssemble srest [] (i + 1)
      Except.ok (s ++ tail)
  | s :: srest, v :: vrest, i => do
      let c ← zenhtmlCoerce i v
      let tail ← zenhtmlAssemble srest vrest (i + 1)
      Except.ok (s ++ c ++ tail)

/-- ASCII whitespace matched by the regex class `\s` (the model keeps the
ASCII subset; the Unicode spaces `\s` also matches never occur in any
input considered here). -/
def isJsWhitespace (c : Char) : Bool :=
  c = ' ' ∨ c = '\t' ∨ c = '\n' ∨ c = '\r' ∨ c = '\x0b' ∨ c = '\x0c'

/-- Case-insensitive prefix match of a (lowercase) pattern. -/
def ciStartsWith : List Char → List Char → Bool
  | _, [] => true
  | [], _ :: _ => false
  | c :: cs, p :: ps => c.toLower = p && ciStartsWith cs ps

/-- `/<script[\s>]/i.test(result)`: a case-insensitive `<script` followed
by a whitespace character or `>`. -/
def hasScriptTag : List Char → Bool
  | [] => false
  | l@(_ :: rest) =>
      (ciStartsWith l "<script".toList &&
        (match l.drop 7 with
         | c :: _ => isJsWhitespace c || c = '>'
         | [] => false)) ||
      hasScriptTag rest

/-- A regex word character (`\w`), for the `\b` boundary test. -/
def isWordChar (c : Char) : Bool :=
  ('a' ≤ c ∧ c ≤ 'z') ∨ ('A' ≤ c ∧ c ≤ 'Z') ∨ ('0' ≤ c ∧ c ≤ '9') ∨ c = '_'

/-- An ASCII letter (what `[a-z]+` matches under the `i` flag). -/
def isAsciiLetter (c : Char) : Bool :=
  ('a' ≤ c ∧ c ≤ 'z') ∨ ('A' ≤ c ∧ c ≤ 'Z')

/-- Match of `on[a-z]+\s*=` (case-insensitive) anchored at the given
position: `on`, at least one letter, optional whitespace, `=`.  Greedy
letter consumption is equivalent to the regex here because `=` and
whitespace are not letters. -/
def matchEventAttrAt (l : List Char) : Bool :=
  if ciStartsWith l "on".toList then
    let afterOn := l.drop 2
    let letters := afterOn.takeWhile isAsciiLetter
    let afterLetters := afterOn.dropWhile isAsciiLetter
    letters.length ≥ 1 &&
      (match afterLetters.dropWhile isJsWhitespace with
       | '=' :: _ => true
       | _ => false)
  else
    false

/-- `/\bon[a-z]+\s*=/i.test(result)`: the anchored match at some position
whose preceding character is not a word character (or at the start). -/
def hasEventAttrAux (prev : Option Char) : List Char → Bool
  | [] => false
  | l@(c :: rest) =>
      ((match prev with
        | none => true
        | some p => !isWordChar p) && matchEventAttrAt l) ||
      hasEventAttrAux (some c) rest

def hasEventAttr (l : List Char) : Bool :=
  hasEventAttrAux none l

/-- `/javascript\s*:/i.test(result)`. -/
def hasJsUrl : List Char → Bool
  | [] => false
  | l@(_ :: rest) =>
      (ciStartsWith l "javascript".toList &&
        (match (l.drop 10).dropWhile isJsWhitespace with
         | ':' :: _ => true
         | _ => false)) ||
      hasJsUrl rest

/-- `result.replace(/<\/script/gi, '<\\/script')`: every case-insensitive
occurrence of `</script` becomes `<\/script` (the replacement string is
literal, hence lowercase). -/
def escapeScriptClose : List Char → List Char
  | [] => []
  | c :: c1 :: c2 :: c3 :: c4 :: c5 :: c6 :: c7 :: tl =>
      if c = '<' ∧ c1 = '/' ∧ c2.toLower = 's' ∧ c3.toLower = 'c' ∧
         c4.toLower = 'r' ∧ c5.toLower = 'i' ∧ c6.toLower = 'p' ∧
         c7.toLower = 't' then
        '<' :: '\\' :: '/' :: 's' :: 'c' :: 'r' :: 'i' :: 'p' :: 't' ::
          escapeScriptClose tl
      else
        c :: escapeScriptClose (c1 :: c2 :: c3 :: c4 :: c5 :: c6 :: c7 :: tl)
  | c :: rest => c :: escapeScriptClose rest
termination_by l => l.length
decreasing_by
  all_goals simp_arith [List.length_cons]

/-- The markup fragment `_zenhtml` returns. -/
structure Fragment where
  html : String
  deriving DecidableEq, Repr

/-- `_zenhtml(strings, ...values)` past the tagged-template guard:
assemble (coercion failures propagate), then reject `<script` tags,
inline `on*=` event attributes and `javascript:` URLs on the fully
assembled output — in that order — and finally escape residual
`</script` sequences in the accepted output. -/
def zenhtml (strings : List String) (values : List ZVal) : Except ZenErr Fragment :=
  match zenhtmlAssemble strings values 0 with
  | Except.error e => Except.error e
  | Except.ok result =>
      if hasScriptTag result.toList then
        Except.error ZenErr.scriptTag
      else if hasEventAttr result.toList then
        Except.error ZenErr.eventAttr
      else if hasJsUrl result.toList then
        Except.error ZenErr.jsUrl
      else
        Except.ok { html := String.mk (escapeScriptClose result.toList) }

/-- The interpolated values `_zenhtml_coerce` rejects by shape: non-array
objects without the fragment tag, and functions.  (Symbols are rejected
too; the claims only speak about objects and functions.) -/
def isNonRenderableValue : ZVal → Bool
  | ZVal.obj _ => true
  | ZVal.fnVal => true
  | _ => false

/-! ## Concrete instances used by witnesses and counterexamples -/

/-- A payload whose tables are well-formed except that the two markers are
swapped (`markers[0].index = 1`, `markers[1].index = 0`). -/
def payloadMarkersSwapped : Payload :=
  { ir_version := 1,
    expressions := [{ marker_index := 0 }, { marker_index := 1 }],
    markers := [{ index := 1, kind := MarkerKind.text, selector := "p" },
                { index := 0, kind := MarkerKind.text, selector := "q" }],
    events := [],
    state_values := [],
    signals := [] }

/-- A payload that passes validation although its two signal descriptors
(ids 0 and 1) resolve to the *same* signal object (`state_values[0]`,
object id 7): both expressions reference that object through different
ids. -/
def payloadAliasedSignals : Payload :=
  { ir_version := 1,
    expressions := [{ marker_index := 0, signal_index := some 0 },
                    { marker_index := 1, signal_index := some 1 }],
    markers := [{ index := 0, kind := MarkerKind.text, selector := "p" },
                { index := 1, kind := MarkerKind.text, selector := "q" }],
    events := [],
    state_values := [StateValue.signalObj 7],
    signals := [{ id := 0, state_index := 0 }, { id := 1, state_index := 0 }] }

/-- A plain-object initializer with a nested object:
`{ a: { b: 1 } }`. -/
def nestedInit : SVal :=
  SVal.obj false [("a", SVal.obj false [("b", SVal.prim (JsVal.num 1))])]

/-! # Theorems -/

/-- JS `Set.add` puts the element in the set. -/
theorem mem_setAdd_self (l : List SubId) (x : SubId) : x ∈ setAdd l x := by
  simp only [setAdd]
  split
  · assumption
  · simp

/-- JS `Set.add` keeps the set duplicate-free. -/
theorem nodup_setAdd (l : List SubId) (x : SubId) (h : l.Nodup) :
    (setAdd l x).Nodup := by
  by_cases hx : x ∈ l
  · simpa [setAdd, hx] using h
  · simp only [setAdd, hx, if_false]
    refine List.Nodup.append h (List.nodup_singleton x) ?_
    intro a ha hax
    simp only [List.mem_singleton] at hax
    subst hax
    exact hx ha

/-- Adding an element already in the set is a no-op. -/
theorem setAdd_idem (l : List SubId) (x : SubId) :
    setAdd (setAdd l x) x = setAdd l x := by
  by_cases hx : x ∈ l
  · simp [setAdd, hx]
  · simp [setAdd, hx]

/-- Delete removes the element from the set. -/
theorem not_mem_setDelete (l : List SubId) (x : SubId) :
    x ∉ setDelete l x := by
  simp [setDelete]

/-- Deleting twice gives the same set as deleting once. -/
theorem setDelete_idem (l : List SubId) (x : SubId) :
    setDelete (setDelete l x) x = setDelete l x := by
  simp [setDelete, List.filter_filter]

/-- A duplicate-free subscriber set containing `fn` notifies it exactly
once. -/
theorem count_setAdd_eq_one (l : List SubId) (x : SubId) (h : l.Nodup) :
    (setAdd l x).count x = 1 :=
  List.count_eq_one_of_mem (nodup_setAdd l x h) (mem_setAdd_self l x)

/-- C2.  `set(x)` while `Object.is(current, x)` holds performs zero
subscriber notifications and leaves the stored value (and everything else
in the signal's state) unchanged — `signalSet` returns the state as-is
with an empty invocation list.  The `NaN`/`NaN` case is an instance, since
`objectIs JsVal.nan JsVal.nan = true`. -/
theorem signal_set_same_value_no_notification (s : SignalState) (x : JsVal)
    (h : objectIs s.value x = true) :
    signalSet s x = (s, []) := by
  simp [signalSet, h]

/-- C2 witness: a signal currently holding `NaN`, set to `NaN` again with
two live subscribers, notifies nobody and keeps its state. -/
theorem signal_set_same_value_no_notification_witness :
    signalSet { value := JsVal.nan, subscribers := [4, 9] } JsVal.nan
      = ({ value := JsVal.nan, subscribers := [4, 9] }, []) :=
  signal_set_same_value_no_notification
    { value := JsVal.nan, subscribers := [4, 9] } JsVal.nan (by decide)

/-- C10.  `subscribe` on signal and state containers stores subscribers in
a `Set` keyed by function identity: subscribing the same function twice
registers it once (the second `subscribe` leaves the state unchanged and a
value change notifies it exactly once), the returned unsubscribe removes
it entirely, and unsubscribing twice equals unsubscribing once — for both
the signal ops and the (identical) state container ops. -/
theorem subscribe_identity_set_semantics (s : SignalState) (fn : SubId)
    (h : s.subscribers.Nodup) :
    (signalSubscribe (signalSubscribe s fn).1 fn).1 = (signalSubscribe s fn).1
  ∧ (∀ x, objectIs (signalSubscribe s fn).1.value x = false →
      ((signalSet (signalSubscribe s fn).1 x).2.count fn = 1))
  ∧ fn ∉ (signalUnsubscribe (signalSubscribe s fn).1 fn).subscribers
  ∧ signalUnsubscribe (signalUnsubscribe s fn) fn = signalUnsubscribe s fn
  ∧ stateSubscribe (stateSubscribe s.subscribers fn) fn
      = stateSubscribe s.subscribers fn
  ∧ (stateSubscribe s.subscribers fn).count fn = 1
  ∧ stateUnsubscribe (stateUnsubscribe s.subscribers fn) fn
      = stateUnsubscribe s.subscribers fn := by
  refine ⟨?_, ?_, ?_, ?_, ?_, ?_, ?_⟩
  · simp [signalSubscribe, setAdd_idem]
  · intro x hx
    simp only [signalSubscribe] at hx
    simp [signalSet, signalSubscribe, hx, count_setAdd_eq_one _ _ h]
  · simp [signalUnsubscribe, signalSubscribe, not_mem_setDelete]
  · simp [signalUnsubscribe, setDelete_idem]
  · simp [stateSubscribe, setAdd_idem]
  · exact count_setAdd_eq_one _ _ h
  · simp [stateUnsubscribe, setDelete_idem]

/-- C10 witness: concrete instance with subscriber set `[3]` and `fn = 5`
(the state freshly holds `0`, so setting `1` notifies). -/
theorem subscribe_identity_set_semantics_witness :
    (signalSet (signalSubscribe { value := JsVal.num 0, subscribers := [3] } 5).1
        (JsVal.num 1)).2.count 5 = 1 :=
  (subscribe_identity_set_semantics
      { value := JsVal.num 0, subscribers := [3] } 5 (by decide)).2.1
    (JsVal.num 1) (by decide)

/-- C8.  With the idempotence latch clear, `cleanup()` invokes every
registered disposer (throwing ones included — exceptions are swallowed by
the per-disposer `try`) in reverse (LIFO) registration order; a second
consecutive call performs no disposals and leaves the registry unchanged;
and calling `cleanup` on the virgin registry (before any hydration)
performs no disposals. -/
theorem cleanup_lifo_swallow_idempotent (r : Registry) (h : r.cleaned = false) :
    (cleanup r).2 = (r.disposers.map Disposer.id).reverse
  ∧ (∀ d ∈ r.disposers, d.id ∈ (cleanup r).2)
  ∧ (cleanup (cleanup r).1).2 = []
  ∧ (cleanup (cleanup r).1).1 = (cleanup r).1
  ∧ (cleanup Registry.initial).2 = [] := by
  refine ⟨?_, ?_, ?_, ?_, ?_⟩
  · simp [cleanup, h]
  · intro d hd
    simp [cleanup, h]
    exact ⟨d, hd, rfl⟩
  · simp [cleanup, h]
  · simp [cleanup, h]
  · simp [cleanup, Registry.initial]

/-- A successful `stateSet` hands out the freeze of a fresh shallow clone:
the result is an object whose *top level* is frozen, and the notified list
is the subscriber snapshot. -/
theorem stateSet_ok_shape (current : SVal) (subs : List SubId) (p : Patch)
    (next : SVal) (notified : List SubId)
    (h : stateSet current subs p = Except.ok (next, notified)) :
    (∃ fields, next = SVal.obj true fields) ∧ notified = subs := by
  simp only [stateSet] at h
  cases hval : stateResolvedNext current p <;> rw [hval] at h <;>
    simp [isPlainObject, cloneSnapshot, objectFreeze] at h
  exact ⟨⟨_, h.1.symm⟩, h.2.symm⟩

/-- C4 (amended).  Snapshots handed out by a state container are frozen at
the *top level* only: a write to a direct property of the initial snapshot
or of any snapshot produced by a successful `set` throws.  (Deep freezing
does not hold — see the counterexample.) -/
theorem state_snapshot_top_level_frozen (v : SVal) (subs : List SubId) (p : Patch) :
    ((isPlainObject v = true ∨ isArray v = true) →
      mutationThrowsAt (stateInit v) [] = some true)
  ∧ (∀ next notified, stateSet v subs p = Except.ok (next, notified) →
      mutationThrowsAt next [] = some true) := by
  constructor
  · intro hv
    cases v with
    | obj fz fields => simp [stateInit, cloneSnapshot, objectFreeze, mutationThrowsAt]
    | arr fz elems => simp [stateInit, cloneSnapshot, objectFreeze, mutationThrowsAt]
    | prim q => simp [isPlainObject, isArray] at hv
    | func => simp [isPlainObject, isArray] at hv
  · intro next notified h
    obtain ⟨⟨fields, hf⟩, -⟩ := stateSet_ok_shape v subs p next notified h
    subst hf
    simp [mutationThrowsAt]

/-- C4 witness: the amended theorem applied to the concrete nested
initializer `{ a: { b: 1 } }` and to a concrete successful `set`. -/
theorem state_snapshot_top_level_frozen_witness :
    mutationThrowsAt (stateInit nestedInit) [] = some true ∧
    mutationThrowsAt (SVal.obj true [("x", SVal.prim JsVal.null)]) [] = some true := by
  constructor
  · exact (state_snapshot_top_level_frozen nestedInit [] (Patch.value nestedInit)).1
      (Or.inl (by decide))
  · exact (state_snapshot_top_level_frozen (SVal.obj true []) []
      (Patch.value (SVal.obj false [("x", SVal.prim JsVal.null)]))).2
      (SVal.obj true [("x", SVal.prim JsVal.null)]) [] (by rfl)

/-- C4 counterexample.  The snapshot `state({ a: { b: 1 } })` hands out is
*not* deeply frozen: its top level is frozen (a top-level write throws),
but the nested object under `a` is unfrozen and mutating it does not
throw — refuting "deeply, recursively frozen, so mutating any nested
object … throws". -/
theorem state_snapshot_deep_freeze_counterexample :
    deeplyFrozen (stateInit nestedInit) = false ∧
    mutationThrowsAt (stateInit nestedInit) ["a"] = some false ∧
    mutationThrowsAt (stateInit nestedInit) [] = some true := by
  decide

/-- C5 (amended).  `state.set(patchOrFn)` succeeds exactly when the
resolved next value is a *plain object*: a functional updater returning an
array (or any other non-plain-object) is rejected with the
"must resolve to a plain object" error rather than replacing the snapshot
wholesale, while a non-function patch is spread-merged over the current
snapshot and therefore always resolves to a plain object (never fails). -/
theorem state_set_plain_object_gate (current : SVal) (subs : List SubId) (p : Patch) :
    (exceptIsOk (stateSet current subs p) = true
       ↔ isPlainObject (stateResolvedNext current p) = true)
  ∧ ∀ v, isPlainObject (stateResolvedNext current (Patch.value v)) = true := by
  constructor
  · by_cases hpo : isPlainObject (stateResolvedNext current p) = true
    · simp [stateSet, hpo, exceptIsOk]
    · simp only [Bool.not_eq_true] at hpo
      simp [stateSet, hpo, exceptIsOk]
  · intro v
    simp [stateResolvedNext, spreadMerge, isPlainObject]

/-- C5 counterexample.  A functional updater resolving to the array
`[1]` makes `set` throw — the array does not replace the snapshot
wholesale, refuting "when the resolved next value is an array … it
replaces the current snapshot wholesale without error". -/
theorem state_set_array_rejected_counterexample :
    stateSet (SVal.obj true []) []
        (Patch.fn (fun _ => SVal.arr false [SVal.prim (JsVal.num 1)]))
      = Except.error "[Zenith Runtime] state.set(next) must resolve to a plain object" := by
  rfl

/-- A successful subscription pass of `zeneffect` preserves the signal
world's length, every signal's value and subscriber-set discipline, and
puts the effect's `runEffect` closure in the subscriber set of every
listed dependency. -/
theorem zeneffectCore_go_ok (fnId : SubId) :
    ∀ (deps : List Dep) (world w' : SignalWorld) (idx : Nat),
    zeneffectCore.go fnId world deps idx = Except.ok w' →
    w'.length = world.length ∧
    ∀ i s, world.get? i = some s →
      ∃ s', w'.get? i = some s' ∧ s'.value = s.value ∧
        (s.subscribers.Nodup → s'.subscribers.Nodup) ∧
        (Dep.sig i ∈ deps → fnId ∈ s'.subscribers) ∧
        (fnId ∈ s.subscribers → fnId ∈ s'.subscribers) := by
  intro deps
  induction deps with
  | nil =>
      intro world w' idx h
      simp only [zeneffectCore.go] at h
      cases h
      refine ⟨rfl, ?_⟩
      intro i s hs
      exact ⟨s, hs, rfl, fun hn => hn, by simp, fun hm => hm⟩
  | cons d rest ih =>
      intro world w' idx h
      cases d with
      | noSubscribe => simp [zeneffectCore.go] at h
      | sig k =>
          simp only [zeneffectCore.go] at h
          cases hk : world.get? k with
          | none => rw [hk] at h; simp at h
          | some s0 =>
              rw [hk] at h
              simp only at h
              have hkl : k < world.length := by
                have := List.get?_eq_some.mp hk
                exact this.choose
              obtain ⟨hlen, hall⟩ := ih _ w' (idx + 1) h
              refine ⟨by rw [hlen]; simp [List.length_set], ?_⟩
              intro i s hs
              by_cases hik : i = k
              · subst hik
                have hs0 : s = s0 := by rw [hs] at hk; exact (Option.some.injEq _ _ ▸ hk.symm : _) ▸ rfl
                have hset : (world.set i (signalSubscribe s0 fnId).1).get? i
                    = some (signalSubscribe s0 fnId).1 :=
                  List.get?_set_eq_of_lt _ (by simpa using hkl)
                obtain ⟨s', hs', hval, hnod, hmem, hkeep⟩ := hall i _ hset
                refine ⟨s', hs', ?_, ?_, ?_, ?_⟩
                · rw [hval]; subst hs0; rfl
                · intro hn
                  subst hs0
                  exact hnod (nodup_setAdd _ _ hn)
                · intro _
                  exact hkeep (mem_setAdd_self _ _)
                · intro hm
                  subst hs0
                  refine hkeep ?_
                  by_cases hx : fnId ∈ s.subscribers <;> simp [signalSubscribe, setAdd, hx]
              · have hset : (world.set k (signalSubscribe s0 fnId).1).get? i = some s := by
                  rw [List.get?_set_ne _ _ (fun hkk => hik hkk.symm)]
                  exact hs
                obtain ⟨s', hs', hval, hnod, hmem, hkeep⟩ := hall i s hset
                refine ⟨s', hs', hval, hnod, ?_, hkeep⟩
                intro hmemdep
                rcases List.mem_cons.mp hmemdep with heq | hrest
                · cases heq; exact absurd rfl hik
                · exact hmem hrest

/-- A dependency without a callable `subscribe` anywhere in the list makes
the subscription pass fail. -/
theorem zeneffectCore_go_noSubscribe (fnId : SubId) :
    ∀ (deps : List Dep) (world : SignalWorld) (idx : Nat),
    Dep.noSubscribe ∈ deps →
    ∀ w', zeneffectCore.go fnId world deps idx ≠ Except.ok w' := by
  intro deps
  induction deps with
  | nil => intro world idx h; simp at h
  | cons d rest ih =>
      intro world idx h w' hok
      cases d with
      | noSubscribe => simp [zeneffectCore.go] at hok
      | sig k =>
          simp only [zeneffectCore.go] at hok
          cases hk : world.get? k with
          | none => rw [hk] at hok; simp at hok
          | some s0 =>
              rw [hk] at hok
              simp only at hok
              have hrest : Dep.noSubscribe ∈ rest := by
                rcases List.mem_cons.mp h with heq | hr
                · cases heq
                · exact hr
              exact ih _ (idx + 1) hrest w' hok

/-- With every listed dependency a valid signal of the world, the
subscription pass succeeds. -/
theorem zeneffectCore_go_total (fnId : SubId) :
    ∀ (deps : List Dep) (world : SignalWorld) (idx : Nat),
    (∀ d ∈ deps, ∃ i, d = Dep.sig i ∧ i < world.length) →
    ∃ w', zeneffectCore.go fnId world deps idx = Except.ok w' := by
  intro deps
  induction deps with
  | nil => intro world idx _; exact ⟨world, rfl⟩
  | cons d rest ih =>
      intro world idx hval
      obtain ⟨i, hdi, hilt⟩ := hval d (List.mem_cons_self d rest)
      subst hdi
      obtain ⟨s0, hs0⟩ : ∃ s0, world.get? i = some s0 :=
        ⟨_, List.get?_eq_get hilt⟩
      obtain ⟨w', hw'⟩ := ih (world.set i (signalSubscribe s0 fnId).1) (idx + 1)
        (fun d hd => by
          obtain ⟨j, hj, hjl⟩ := hval d (List.mem_cons_of_mem _ hd)
          exact ⟨j, hj, by simpa [List.length_set] using hjl⟩)
      refine ⟨w', ?_⟩
      simp only [zeneffectCore.go]
      rw [hs0]
      simpa using hw'

/-- C9.  The explicit-dependency `zeneffect` (runtime-template variant):
with a non-empty list of subscribable dependencies it succeeds in *either*
argument order with the same result, the effect body runs exactly once
synchronously during the call (the run counter `1` produced after the
subscription map and before the call returns), and the effect closure is
subscribed to every listed dependency so that each subsequent
value-changing notification from a dependency invokes it exactly once.
An empty dependency list is an error, and so is any dependency that does
not expose `subscribe`. -/
theorem zeneffect_explicit_dependency_contract (world : SignalWorld)
    (deps : List Dep) (fnId : SubId)
    (hval : ∀ d ∈ deps, ∃ i, d = Dep.sig i ∧ i < world.length)
    (hne : deps ≠ [])
    (hnodup : ∀ s ∈ world, s.subscribers.Nodup) :
    (∃ w',
      zeneffect world ZArg.func (ZArg.arr deps) fnId = Except.ok (w', 1) ∧
      zeneffect world (ZArg.arr deps) ZArg.func fnId = Except.ok (w', 1) ∧
      (∀ i, Dep.sig i ∈ deps →
        ∃ s', w'.get? i = some s' ∧ fnId ∈ s'.subscribers ∧
          ∀ x, objectIs s'.value x = false →
            ((signalSet s' x).2.count fnId = 1)))
  ∧ (zeneffect world ZArg.func (ZArg.arr []) fnId
      = Except.error "[Zenith Runtime] zeneffect(fn, deps) requires non-empty deps")
  ∧ (∀ deps₂ : List Dep, Dep.noSubscribe ∈ deps₂ →
      ∃ msg, zeneffect world ZArg.func (ZArg.arr deps₂) fnId = Except.error msg) := by
  refine ⟨?_, ?_, ?_⟩
  · -- success case
    obtain ⟨w', hw'⟩ := zeneffectCore_go_total fnId deps world 0 hval
    have hcore : zeneffectCore world deps fnId = Except.ok (w', 1) := by
      have hde : deps.isEmpty = false := by
        cases deps
        · exact absurd rfl hne
        · rfl
      simp [zeneffectCore, hde, hw', Except.map]
    obtain ⟨hlen, hall⟩ := zeneffectCore_go_ok fnId deps world w' 0 hw'
    refine ⟨w', by simpa [zeneffect] using hcore, by simpa [zeneffect] using hcore, ?_⟩
    intro i hi
    obtain ⟨j, hj, hjl⟩ := hval _ hi
    cases hj
    obtain ⟨s, hs⟩ : ∃ s, world.get? i = some s := by
      exact ⟨world.get ⟨i, hjl⟩, List.get?_eq_get hjl⟩
    obtain ⟨s', hs', hvaleq, hnod, hmem, -⟩ := hall i s hs
    refine ⟨s', hs', hmem hi, ?_⟩
    intro x hx
    have hnodup' : s'.subscribers.Nodup :=
      hnod (hnodup s (List.get?_mem hs))
    simp [signalSet, hx]
    exact List.count_eq_one_of_mem hnodup' (hmem hi)
  · rfl
  · intro deps₂ hmem
    cases hres : zeneffect world ZArg.func (ZArg.arr deps₂) fnId with
    | error msg => exact ⟨msg, rfl⟩
    | ok pr =>
        exfalso
        have hde : deps₂.isEmpty = false := by
          cases deps₂
          · simp at hmem
          · rfl
        simp only [zeneffect, zeneffectCore, hde, Bool.false_eq_true, if_false] at hres
        cases hgo : zeneffectCore.go fnId world deps₂ 0 with
        | error e => rw [hgo] at hres; simp [Except.map] at hres
        | ok w' => exact zeneffectCore_go_noSubscribe fnId deps₂ world 0 hmem w' hgo

/-- C9 witness: one fresh signal, dependency list `[sig 0]`, effect id 5 —
the call succeeds, runs the effect once during the call, and a subsequent
`set` to a different value notifies the effect exactly once. -/
theorem zeneffect_explicit_dependency_contract_witness :
    ∃ w', zeneffect [signalCreate (JsVal.num 0)] ZArg.func (ZArg.arr [Dep.sig 0]) 5
        = Except.ok (w', 1) := by
  obtain ⟨⟨w', h1, -, -⟩, -, -⟩ :=
    zeneffect_explicit_dependency_contract [signalCreate (JsVal.num 0)] [Dep.sig 0] 5
      (by rintro d hd
          rw [List.mem_singleton] at hd
          subst hd
          exact ⟨0, rfl, by decide⟩)
      (by simp)
      (by rintro s hs
          rw [List.mem_singleton] at hs
          subst hs
          exact List.nodup_nil)
  exact ⟨w', h1⟩

/-- C8 witness: three registered disposers, the middle one throwing, are
all invoked in LIFO order `[3, 2, 1]`; the second call disposes nothing. -/
theorem cleanup_lifo_swallow_idempotent_witness :
    (cleanup { disposers := [⟨1, false⟩, ⟨2, true⟩, ⟨3, false⟩],
               listeners := [], cleaned := false }).2 = [3, 2, 1] := by
  have h := cleanup_lifo_swallow_idempotent
    { disposers := [⟨1, false⟩, ⟨2, true⟩, ⟨3, false⟩],
      listeners := [], cleaned := false } (by decide)
  rw [h.1]
  decide

/-- The expression loop on a table of well-formed entries either accepts
(all entries in strict position order) or fails with precisely the
"expression table out of order" error. -/
theorem checkExpressions_cases (total : Nat) :
    ∀ (es : List Expression) (i : Nat),
    (∀ e ∈ es, exprEntryWf total e = true) →
    (checkExpressions total es i = Except.ok () ∧
       ∀ j (hj : j < es.length), (es.get ⟨j, hj⟩).marker_index = ((i + j : Nat) : Int))
  ∨ (∃ a b, checkExpressions total es i = Except.error (ValErr.exprOutOfOrder a b)) := by
  intro es
  induction es with
  | nil =>
      intro i _
      left
      exact ⟨rfl, fun j hj => absurd hj (by simp)⟩
  | cons e rest ih =>
      intro i hwf
      have hwfe := hwf e (List.mem_cons_self e rest)
      simp only [exprEntryWf, Bool.and_eq_true, decide_eq_true_eq] at hwfe
      obtain ⟨⟨⟨h1, h2⟩, h3⟩, h4⟩ := hwfe
      have hc1 : ¬(e.marker_index < 0 ∨ e.marker_index ≥ (total : Int)) := by
        push_neg
        exact ⟨by omega, by omega⟩
      have hc3 : (match e.fn_index with
          | some f => decide (f < 0)
          | none => false) ≠ true := by
        cases hf : e.fn_index with
        | none => simp
        | some f =>
            rw [hf] at h3
            simp only [decide_eq_true_eq] at h3
            simp only [ne_eq, decide_eq_true_eq]
            omega
      have hc4 : (match e.signal_indices with
          | some l => l.findIdx? (fun v => decide (v < 0))
          | none => none) = none := by
        cases hsi : e.signal_indices with
        | none => rfl
        | some l =>
            rw [hsi] at h4
            simp only [List.all_eq_true, decide_eq_true_eq] at h4
            simp only [List.findIdx?_eq_none_iff]
            intro v hv
            simpa using h4 v hv
      by_cases hmi : e.marker_index = (i : Int)
      · have hrec := ih (i + 1) (fun x hx => hwf x (List.mem_cons_of_mem _ hx))
        rcases hrec with ⟨hok, hpos⟩ | ⟨a, b, herr⟩
        · left
          constructor
          · simp only [checkExpressions]
            rw [if_neg hc1, if_neg (not_not_intro hmi), if_neg hc3, hc4]
            exact hok
          · intro j hj
            cases j with
            | zero => simpa using hmi
            | succ j' =>
                have := hpos j' (by simpa using hj)
                simp only [List.get] at this ⊢
                rw [this]
                congr 1
                omega
        · right
          refine ⟨a, b, ?_⟩
          simp only [checkExpressions]
          rw [if_neg hc1, if_neg (not_not_intro hmi), if_neg hc3, hc4]
          exact herr
      · right
        refine ⟨i, e.marker_index, ?_⟩
        simp only [checkExpressions]
        rw [if_neg hc1, if_pos hmi]

/-- The marker loop on a table of well-formed entries either accepts (all
entries in strict position order) or fails with precisely the
"marker table out of order" error. -/
theorem checkMarkers_cases (total : Nat) :
    ∀ (ms : List Marker) (i : Nat),
    (∀ m ∈ ms, markerEntryWf total m = true) →
    (checkMarkers total ms i = Except.ok () ∧
       ∀ j (hj : j < ms.length), (ms.get ⟨j, hj⟩).index = ((i + j : Nat) : Int))
  ∨ (∃ a b, checkMarkers total ms i = Except.error (ValErr.markerOutOfOrder a b)) := by
  intro ms
  induction ms with
  | nil =>
      intro i _
      left
      exact ⟨rfl, fun j hj => absurd hj (by simp)⟩
  | cons m rest ih =>
      intro i hwf
      have hwfm := hwf m (List.mem_cons_self m rest)
      simp only [markerEntryWf, Bool.and_eq_true, decide_eq_true_eq] at hwfm
      obtain ⟨⟨⟨h1, h2⟩, h3⟩, h4⟩ := hwfm
      have hc1 : ¬(m.index < 0 ∨ m.index ≥ (total : Int)) := by
        push_neg
        exact ⟨by omega, by omega⟩
      have hc3 : ¬(m.selector = "") := h3
      have hc4 : ¬(m.kind = MarkerKind.attr ∧ (m.attr = none ∨ m.attr = some "")) := by
        rintro ⟨hk, hattr⟩
        rw [hk] at h4
        cases hat : m.attr with
        | none => rw [hat] at h4; simp at h4
        | some a =>
            rw [hat] at h4
            rcases hattr with h | h
            · rw [hat] at h; cases h
            · rw [hat] at h
              cases h
              simp at h4
      by_cases hmi : m.index = (i : Int)
      · have hrec := ih (i + 1) (fun x hx => hwf x (List.mem_cons_of_mem _ hx))
        rcases hrec with ⟨hok, hpos⟩ | ⟨a, b, herr⟩
        · left
          constructor
          · simp only [checkMarkers]
            rw [if_neg hc1, if_neg (not_not_intro hmi), if_neg hc3, if_neg hc4]
            exact hok
          · intro j hj
            cases j with
            | zero => simpa using hmi
            | succ j' =>
                have := hpos j' (by simpa using hj)
                simp only [List.get] at this ⊢
                rw [this]
                congr 1
                omega
        · right
          refine ⟨a, b, ?_⟩
          simp only [checkMarkers]
          rw [if_neg hc1, if_neg (not_not_intro hmi), if_neg hc3, if_neg hc4]
          exact herr
      · right
        refine ⟨i, m.index, ?_⟩
        simp only [checkMarkers]
        rw [if_neg hc1, if_pos hmi]

/-- C1.  For a payload whose tables are entry-wise well formed, any
misplacement of the positional tables — `markers[i].index ≠ i` or
`expressions[i].marker_index ≠ i` at some position — makes
`_validatePayload` fail with an "out of order" error, and `hydrate`
(which validates before touching the DOM) applies no marker bindings. -/
theorem hydrate_out_of_order_hard_fail (p : Payload)
    (hv : p.ir_version = 1)
    (hlen : p.markers.length = p.expressions.length)
    (hew : ∀ e ∈ p.expressions, exprEntryWf p.expressions.length e = true)
    (hmw : ∀ m ∈ p.markers, markerEntryWf p.expressions.length m = true)
    (hbad : (∃ j, ∃ hj : j < p.expressions.length,
               (p.expressions.get ⟨j, hj⟩).marker_index ≠ (j : Int))
          ∨ (∃ j, ∃ hj : j < p.markers.length,
               (p.markers.get ⟨j, hj⟩).index ≠ (j : Int))) :
    (∃ err, validatePayload p = Except.error err ∧ err.isOutOfOrder = true)
  ∧ hydrateAppliedMarkers p = [] := by
  have main : ∃ err, validatePayload p = Except.error err ∧ err.isOutOfOrder = true := by
    rw [validatePayload, if_neg (by simp [hv]), if_neg (by simp [hlen])]
    rcases checkExpressions_cases p.expressions.length p.expressions 0 hew with
      ⟨hok, hpos⟩ | ⟨a, b, herr⟩
    · have hbadm : ∃ j, ∃ hj : j < p.markers.length,
          (p.markers.get ⟨j, hj⟩).index ≠ (j : Int) := by
        rcases hbad with ⟨j, hj, hne⟩ | h
        · exact absurd (by simpa using hpos j hj) hne
        · exact h
      rcases checkMarkers_cases p.expressions.length p.markers 0 hmw with
        ⟨hmok, hmpos⟩ | ⟨a, b, herr⟩
      · obtain ⟨j, hj, hne⟩ := hbadm
        exact absurd (by simpa using hmpos j hj) hne
      · rw [hok, herr]
        exact ⟨_, rfl, rfl⟩
    · rw [herr]
      exact ⟨_, rfl, rfl⟩
  refine ⟨main, ?_⟩
  obtain ⟨err, heq, -⟩ := main
  simp [hydrateAppliedMarkers, heq]

/-- C1 witness: the concrete payload with its two markers swapped fails
validation with an out-of-order error and gets no marker bindings. -/
theorem hydrate_out_of_order_hard_fail_witness :
    (∃ err, validatePayload payloadMarkersSwapped = Except.error err ∧
       err.isOutOfOrder = true)
  ∧ hydrateAppliedMarkers payloadMarkersSwapped = [] :=
  hydrate_out_of_order_hard_fail payloadMarkersSwapped rfl (by decide) (by decide)
    (by decide) (Or.inr ⟨0, by decide, by decide⟩)

/-- The keys of the dependency map after registering one signal index:
unchanged when the key already exists, appended otherwise. -/
theorem addMarkerDep_keys (m : List (Int × List Int)) (sid : Int) (mi : Int) :
    (addMarkerDep m sid mi).map Prod.fst =
      if sid ∈ m.map Prod.fst then m.map Prod.fst else m.map Prod.fst ++ [sid] := by
  by_cases h : m.any (fun p => p.1 = sid) = true
  · have hmem : sid ∈ m.map Prod.fst := by
      simp only [List.any_eq_true, decide_eq_true_eq] at h
      obtain ⟨p, hp, hps⟩ := h
      exact List.mem_map.mpr ⟨p, hp, hps⟩
    rw [addMarkerDep, if_pos h, if_pos hmem, List.map_map]
    apply List.map_congr_left
    intro p _
    by_cases hps : p.1 = sid <;> simp [hps]
  · have hmem : sid ∉ m.map Prod.fst := by
      simp only [List.any_eq_true, decide_eq_true_eq] at h
      intro hcon
      obtain ⟨p, hp, hps⟩ := List.mem_map.mp hcon
      exact h ⟨p, hp, hps⟩
    rw [addMarkerDep, if_neg h, if_neg hmem, List.map_append]
    rfl

/-- Registering a signal index keeps the dependency-map keys
duplicate-free. -/
theorem addMarkerDep_keys_nodup (m : List (Int × List Int)) (sid : Int) (mi : Int)
    (h : (m.map Prod.fst).Nodup) : ((addMarkerDep m sid mi).map Prod.fst).Nodup := by
  rw [addMarkerDep_keys]
  by_cases hmem : sid ∈ m.map Prod.fst
  · rwa [if_pos hmem]
  · rw [if_neg hmem]
    refine List.Nodup.append h (List.nodup_singleton sid) ?_
    intro a ha hax
    simp only [List.mem_singleton] at hax
    subst hax
    exact hmem ha

/-- Registering a whole list of signal indices (the inner fold of
`dependentMarkersBySignal`) keeps the keys duplicate-free. -/
theorem foldl_addMarkerDep_keys_nodup (mi : Int) :
    ∀ (sids : List Int) (m : List (Int × List Int)),
    (m.map Prod.fst).Nodup →
    ((sids.foldl (fun m' sid => addMarkerDep m' sid mi) m).map Prod.fst).Nodup := by
  intro sids
  induction sids with
  | nil => intro m h; exact h
  | cons sid rest ih =>
      intro m h
      exact ih _ (addMarkerDep_keys_nodup m sid mi h)

/-- The keys of the full dependency map are duplicate-free: one map entry
per distinct referenced signal id. -/
theorem dependentMarkersBySignal_keys_nodup (exprs : List Expression) :
    ((dependentMarkersBySignal exprs).map Prod.fst).Nodup := by
  suffices h : ∀ (es : List Expression) (m : List (Int × List Int)),
      (m.map Prod.fst).Nodup →
      ((es.foldl
        (fun m e => (resolveExpressionSignalIndices e).foldl
          (fun m' sid => addMarkerDep m' sid e.marker_index) m) m).map Prod.fst).Nodup by
    exact h exprs [] List.nodup_nil
  intro es
  induction es with
  | nil => intro m h; exact h
  | cons e rest ih =>
      intro m h
      exact ih _ (foldl_addMarkerDep_keys_nodup e.marker_index
        (resolveExpressionSignalIndices e) m h)

/-- The subscribe pass makes exactly one `subscribe` call per entry of the
dependency map. -/
theorem signalSubscribeCalls_go_length (smap : List Nat) :
    ∀ (l : List (Int × List Int)) (calls : List Nat),
    signalSubscribeCalls.go smap l = Except.ok calls → calls.length = l.length := by
  intro l
  induction l with
  | nil =>
      intro calls h
      simp only [signalSubscribeCalls.go] at h
      cases h
      rfl
  | cons p rest ih =>
      intro calls h
      obtain ⟨sid, markers⟩ := p
      simp only [signalSubscribeCalls.go] at h
      cases hlook : (if sid < 0 then none else smap.get? sid.toNat) with
      | none => rw [hlook] at h; simp at h
      | some oid =>
          rw [hlook] at h
          simp only at h
          cases hgo : signalSubscribeCalls.go smap rest with
          | error e => rw [hgo] at h; simp [Except.map] at h
          | ok tl =>
              rw [hgo] at h
              simp only [Except.map] at h
              cases h
              simp [ih tl hgo]

/-- C3 (amended).  `hydrate` de-duplicates signal subscriptions by
*signal id* (and component-binding subscriptions by object identity): the
dependency map holds one entry per distinct signal id referenced by the
expression table, however many markers reference it, and the subscribe
pass performs exactly one `subscribe` call per entry.  A signal object
registered under several ids receives one call per id, not one per unique
object — see the counterexample. -/
theorem subscribe_once_per_signal_id (exprs : List Expression) (smap : List Nat) :
    ((dependentMarkersBySignal exprs).map Prod.fst).Nodup
  ∧ ∀ calls, signalSubscribeCalls exprs smap = Except.ok calls →
      calls.length = (dependentMarkersBySignal exprs).length := by
  refine ⟨dependentMarkersBySignal_keys_nodup exprs, ?_⟩
  intro calls h
  exact signalSubscribeCalls_go_length smap (dependentMarkersBySignal exprs) calls h

/-- C3 witness: on the aliased-signal payload the dependency map has the
two distinct keys 0 and 1 and the subscribe pass performs exactly two
calls. -/
theorem subscribe_once_per_signal_id_witness :
    ((dependentMarkersBySignal payloadAliasedSignals.expressions).map Prod.fst).Nodup
  ∧ ([7, 7] : List Nat).length
      = (dependentMarkersBySignal payloadAliasedSignals.expressions).length :=
  ⟨(subscribe_once_per_signal_id payloadAliasedSignals.expressions [7, 7]).1,
   (subscribe_once_per_signal_id payloadAliasedSignals.expressions [7, 7]).2
     [7, 7] (by rfl)⟩

/-- C3 counterexample.  The aliased-signal payload hydrates successfully
(validation passes), yet the signal object with id 7 — referenced through
the two descriptor ids 0 and 1 — receives **two** `subscribe` calls, not
one: de-duplication is per signal id, not per unique signal object. -/
theorem subscribe_dedup_counterexample :
    validatePayload payloadAliasedSignals = Except.ok ()
  ∧ hydrateSignalSubscribeCalls payloadAliasedSignals = Except.ok [7, 7]
  ∧ List.count 7 [7, 7] = 2 := by
  refine ⟨rfl, rfl, rfl⟩

/-- C7.  Strict dotted member-chain traversal: an unsafe member segment
(`__proto__`/`prototype`/`constructor`) fails with the fatal
`UNSAFE_MEMBER_ACCESS` error; an intermediate cursor that is
null/undefined, a non-object primitive, or lacks the member as an own
property fails with the fatal `UNRESOLVED_EXPRESSION` error whose
diagnostic path carries the traversed dotted path extended by the failing
segment; and in the presence of any unsafe segment the traversal (and
`resolveStrictMemberChain` as a whole, for unsafe member segments) never
returns a value. -/
theorem member_chain_fatal_errors (markerIndex : Nat) (literal : String)
    (cursor : MVal) (traversed : String) (seg : String) (rest : List String) :
    (seg ∈ unsafeMemberKeys →
       chainLoop markerIndex literal cursor traversed (seg :: rest) =
         Except.error { code := "UNSAFE_MEMBER_ACCESS",
                        path := s!"marker[{markerIndex}].expression.{literal}" })
  ∧ (seg ∉ unsafeMemberKeys →
      (cursor = MVal.vnull ∨ cursor = MVal.vundef ∨ (∃ q, cursor = MVal.prim q) ∨
        mvalOwn cursor seg = none) →
       chainLoop markerIndex literal cursor traversed (seg :: rest) =
         Except.error { code := "UNRESOLVED_EXPRESSION",
                        path := s!"marker[{markerIndex}].expression.{traversed}.{seg}" })
  ∧ (∀ segs : List String, (∃ k ∈ segs, k ∈ unsafeMemberKeys) →
       ∀ v, chainLoop markerIndex literal cursor traversed segs ≠ Except.ok v)
  ∧ (∀ (scope : List (String × MVal)) (segments : List String),
       (∃ k ∈ segments.drop 1, k ∈ unsafeMemberKeys) →
       ∀ v, resolveStrictMemberChain markerIndex scope segments ≠ Except.ok v) := by
  have hstep : ∀ (lit : String) (c : MVal) (t s : String) (r : List String),
      s ∈ unsafeMemberKeys →
      chainLoop markerIndex lit c t (s :: r) =
        Except.error { code := "UNSAFE_MEMBER_ACCESS",
                       path := s!"marker[{markerIndex}].expression.{lit}" } := by
    intro lit c t s r hs
    simp only [chainLoop]
    rw [if_pos hs]
  have hloop : ∀ (lit : String) (segs : List String) (c : MVal) (t : String),
      (∃ k ∈ segs, k ∈ unsafeMemberKeys) →
      ∀ v, chainLoop markerIndex lit c t segs ≠ Except.ok v := by
    intro lit segs
    induction segs with
    | nil => intro c t h v; simp at h
    | cons s r ih =>
        intro c t h v hok
        by_cases hs : s ∈ unsafeMemberKeys
        · rw [hstep lit c t s r hs] at hok
          cases hok
        · have hr : ∃ k ∈ r, k ∈ unsafeMemberKeys := by
            obtain ⟨k, hk, hku⟩ := h
            rcases List.mem_cons.mp hk with rfl | hkr
            · exact absurd hku hs
            · exact ⟨k, hkr, hku⟩
          cases c with
          | vnull =>
              simp only [chainLoop] at hok
              rw [if_neg hs] at hok
              simp at hok
          | vundef =>
              simp only [chainLoop] at hok
              rw [if_neg hs] at hok
              simp at hok
          | prim q =>
              simp only [chainLoop] at hok
              rw [if_neg hs] at hok
              simp at hok
          | obj fields =>
              simp only [chainLoop] at hok
              rw [if_neg hs] at hok
              cases hown : mvalOwn (MVal.obj fields) s with
              | none => rw [hown] at hok; simp at hok
              | some next =>
                  rw [hown] at hok
                  exact ih next _ hr v hok
          | fn fields =>
              simp only [chainLoop] at hok
              rw [if_neg hs] at hok
              cases hown : mvalOwn (MVal.fn fields) s with
              | none => rw [hown] at hok; simp at hok
              | some next =>
                  rw [hown] at hok
                  exact ih next _ hr v hok
  refine ⟨hstep literal cursor traversed seg rest,
    ?_, fun segs h v => hloop literal segs cursor traversed h v, ?_⟩
  · intro hs hbad
    rcases hbad with rfl | rfl | ⟨q, rfl⟩ | hown
    · simp only [chainLoop]
      rw [if_neg hs]
    · simp only [chainLoop]
      rw [if_neg hs]
    · simp only [chainLoop]
      rw [if_neg hs]
    · cases cursor with
      | vnull =>
          simp only [chainLoop]
          rw [if_neg hs]
      | vundef =>
          simp only [chainLoop]
          rw [if_neg hs]
      | prim q =>
          simp only [chainLoop]
          rw [if_neg hs]
      | obj fields =>
          simp only [chainLoop]
          rw [if_neg hs, hown]
      | fn fields =>
          simp only [chainLoop]
          rw [if_neg hs, hown]
  · intro scope segments h v hok
    cases segments with
    | nil => simp at h
    | cons base r =>
        simp only [List.drop_one, List.tail_cons] at h
        simp only [resolveStrictMemberChain] at hok
        cases hfind : (scope.find? (fun p => p.1 = base)).map Prod.snd with
        | none => rw [hfind] at hok; cases hok
        | some c =>
            rw [hfind] at hok
            exact hloop (String.intercalate "." (base :: r)) r c base h v hok

/-- C7 witness: a concrete unsafe segment and a concrete nullish
intermediate, both failing with the exact structured errors. -/
theorem member_chain_fatal_errors_witness :
    chainLoop 3 "a.__proto__" (MVal.obj []) "a" ["__proto__"] =
      Except.error { code := "UNSAFE_MEMBER_ACCESS",
                     path := "marker[3].expression.a.__proto__" }
  ∧ chainLoop 3 "a.b" MVal.vnull "a" ["b"] =
      Except.error { code := "UNRESOLVED_EXPRESSION",
                     path := "marker[3].expression.a.b" } := by
  constructor
  · exact (member_chain_fatal_errors 3 "a.__proto__" (MVal.obj []) "a" "__proto__" []).1
      (by decide)
  · exact (member_chain_fatal_errors 3 "a.b" MVal.vnull "a" "b" []).2.1
      (by decide) (Or.inl rfl)

/-- A non-renderable interpolated value (plain object or function) always
makes `_zenhtml_coerce` throw, whatever its interpolation index. -/
theorem zenhtmlCoerce_nonRenderable (i : Nat) (v : ZVal)
    (h : isNonRenderableValue v = true) :
    ∃ e, zenhtmlCoerce i v = Except.error e := by
  cases hres : zenhtmlCoerce i v with
  | error e => exact ⟨e, rfl⟩
  | ok s =>
      exfalso
      cases v with
      | obj keys =>
          simp only [zenhtmlCoerce] at hres
          split at hres <;> cases hres
      | fnVal =>
          simp only [zenhtmlCoerce] at hres
          cases hres
      | vnull => simp [isNonRenderableValue] at h
      | vundef => simp [isNonRenderableValue] at h
      | vbool b => simp [isNonRenderableValue] at h
      | str s' => simp [isNonRenderableValue] at h
      | num n => simp [isNonRenderableValue] at h
      | fragment html => simp [isNonRenderableValue] at h
      | arr elems => simp [isNonRenderableValue] at h
      | symVal => simp [isNonRenderableValue] at h

/-- If some consumed interpolated value is non-renderable, template
assembly fails. -/
theorem zenhtmlAssemble_error :
    ∀ (strings : List String) (values : List ZVal) (i : Nat),
    values.length < strings.length →
    (∃ v ∈ values, isNonRenderableValue v = true) →
    ∃ e, zenhtmlAssemble strings values i = Except.error e := by
  intro strings
  induction strings with
  | nil =>
      intro values i hlen h
      simp at hlen
  | cons s srest ih =>
      intro values i hlen h
      cases values with
      | nil =>
          obtain ⟨v, hv, -⟩ := h
          simp at hv
      | cons v vrest =>
          obtain ⟨w, hw, hwnr⟩ := h
          cases hres : zenhtmlCoerce i v with
          | error e =>
              refine ⟨e, ?_⟩
              simp [zenhtmlAssemble, hres, bind, Except.bind]
          | ok c =>
              rcases List.mem_cons.mp hw with rfl | hwr
              · obtain ⟨e, he⟩ := zenhtmlCoerce_nonRenderable i w hwnr
                rw [hres] at he
                cases he
              · obtain ⟨e, he⟩ := ih vrest (i + 1)
                  (by simpa using Nat.lt_of_succ_lt_succ (by simpa using hlen))
                  ⟨w, hwr, hwnr⟩
                refine ⟨e, ?_⟩
                simp [zenhtmlAssemble, hres, he, bind, Except.bind]

/-- C6.  The embedded-markup builder `_zenhtml`: a non-fragment object or
function among the interpolated values is rejected with a structured
render error; on the fully assembled output, a `<script` tag, an inline
`on*=` event attribute, and a `javascript:` URL are rejected — in that
check order — rather than escaped; and an accepted output is returned as
a fragment whose html is the assembled string with residual `</script`
sequences escaped. -/
theorem zenhtml_sanitizer_gates (strings : List String) (values : List ZVal)
    (hlen : values.length + 1 = strings.length) :
    ((∃ v ∈ values, isNonRenderableValue v = true) →
       ∃ e, zenhtml strings values = Except.error e)
  ∧ ∀ assembled, zenhtmlAssemble strings values 0 = Except.ok assembled →
      (hasScriptTag assembled.toList = true →
         zenhtml strings values = Except.error ZenErr.scriptTag)
    ∧ (hasScriptTag assembled.toList = false → hasEventAttr assembled.toList = true →
         zenhtml strings values = Except.error ZenErr.eventAttr)
    ∧ (hasScriptTag assembled.toList = false → hasEventAttr assembled.toList = false →
         hasJsUrl assembled.toList = true →
         zenhtml strings values = Except.error ZenErr.jsUrl)
    ∧ (hasScriptTag assembled.toList = false → hasEventAttr assembled.toList = false →
         hasJsUrl assembled.toList = false →
         zenhtml strings values
           = Except.ok { html := String.mk (escapeScriptClose assembled.toList) }) := by
  constructor
  · intro h
    obtain ⟨e, he⟩ := zenhtmlAssemble_error strings values 0 (by omega) h
    exact ⟨e, by simp [zenhtml, he]⟩
  · intro assembled hasm
    refine ⟨?_, ?_, ?_, ?_⟩
    · intro hS
      simp only [String.toList] at hS
      simp [zenhtml, hasm, hS]
    · intro hS hE
      simp only [String.toList] at hS hE
      simp [zenhtml, hasm, hS, hE]
    · intro hS hE hU
      simp only [String.toList] at hS hE hU
      simp [zenhtml, hasm, hS, hE, hU]
    · intro hS hE hU
      simp only [String.toList] at hS hE hU
      simp [zenhtml, hasm, hS, hE, hU, String.toList]

/-- C6 witness: a function interpolation is rejected, and an assembled
output containing `<script>` is rejected with the script-tag category. -/
theorem zenhtml_sanitizer_gates_witness :
    (∃ e, zenhtml ["a", ""] [ZVal.fnVal] = Except.error e)
  ∧ zenhtml ["<script>alert(1)", ""] [ZVal.str "x"] = Except.error ZenErr.scriptTag := by
  constructor
  · exact (zenhtml_sanitizer_gates ["a", ""] [ZVal.fnVal] (by decide)).1
      ⟨ZVal.fnVal, by simp, rfl⟩
  · exact ((zenhtml_sanitizer_gates ["<script>alert(1)", ""] [ZVal.str "x"]
      (by decide)).2 "<script>alert(1)x" (by rfl)).1 (by decide)

end Zenith
